import Mathlib

/-!
Shallow embedding of the StalwartGen license-key generator.

The repository contains two near-identical copies of the issuing tool:
`crates/common/src/enterprise/keygen.rs` and `src/enterprise/keygen.rs`.
Both expose `generate_license_key(valid_from, valid_to, domain, accounts,
private_key)`, which serializes the token fields in little-endian order,
signs the serialized prefix with an Ed25519 private key, appends the
signature and base64-encodes the whole buffer (standard alphabet, padding).

Machine integers are modelled as `Nat` with explicit truncation where the
Rust code truncates (the `as u32` cast on `domain.len()`); byte strings are
`List Nat` of UTF-8 byte values; the Ed25519 signing primitive is an
abstract function parameter `sign : List Nat → List Nat` standing for
`private_key.sign`.
-/

namespace StalwartGen

/-- Little-endian byte serialization of a natural number into `k` bytes,
modelling Rust's `u64::to_le_bytes` (`k = 8`) and `u32::to_le_bytes`
(`k = 4`); values are implicitly truncated modulo `256 ^ k`, exactly as the
fixed-width Rust integer types (and the `as u32` cast) do. -/
def leBytes : Nat → Nat → List Nat
  | 0, _ => []
  | k + 1, n => n % 256 :: leBytes k (n / 256)

/-- Read a little-endian byte list back as a natural number. -/
def fromLE : List Nat → Nat
  | [] => 0
  | b :: bs => b + 256 * fromLE bs

theorem leBytes_length (k n : Nat) : (leBytes k n).length = k := by
  induction k generalizing n with
  | zero => rfl
  | succ k ih => simp [leBytes, ih]

theorem fromLE_leBytes (k n : Nat) : fromLE (leBytes k n) = n % 256 ^ k := by
  induction k generalizing n with
  | zero => simp [leBytes, fromLE, Nat.mod_one]
  | succ k ih =>
      rw [leBytes, fromLE, ih, Nat.pow_succ', Nat.mod_mul]

theorem leBytes_mod (k n : Nat) : leBytes k (n % 256 ^ k) = leBytes k n := by
  induction k generalizing n with
  | zero => rfl
  | succ k ih =>
      rw [leBytes, leBytes, Nat.pow_succ', Nat.mod_mul_right_mod,
        Nat.mod_mul, Nat.add_mul_div_left _ _ (by norm_num : (0:Nat) < 256)]
      have h256 : n % 256 / 256 = 0 := Nat.div_eq_of_lt (Nat.mod_lt _ (by norm_num))
      rw [h256, Nat.zero_add, ih]

/-- The six bits of a base64 symbol index, mapped to the standard alphabet
`A-Z a-z 0-9 + /`. -/
def b64Char (n : Nat) : Char :=
  "ABCDEFGHIJKLMNOPQRSTUVWXYZabcdefghijklmnopqrstuvwxyz0123456789+/".toList.getD n 'A'

/-- Standard base64 encoding with `=` padding of a byte list, modelling the
`base64` crate's `general_purpose::STANDARD` engine's `encode`. -/
def base64Encode : List Nat → List Char
  | [] => []
  | [b0] => [b64Char (b0 / 4), b64Char (b0 % 4 * 16), '=', '=']
  | [b0, b1] => [b64Char (b0 / 4), b64Char (b0 % 4 * 16 + b1 / 16), b64Char (b1 % 16 * 4), '=']
  | b0 :: b1 :: b2 :: rest =>
      b64Char (b0 / 4) :: b64Char (b0 % 4 * 16 + b1 / 16) ::
        b64Char (b1 % 16 * 4 + b2 / 64) :: b64Char (b2 % 64) :: base64Encode rest

/-- The buffer `key_data` as it stands when `private_key.sign(&key_data)` is
called (keygen.rs, the five `extend_from_slice` lines): the canonical bytes
of the token fields.  `domain.len() as u32` is the truncating cast, absorbed
here by `leBytes 4` which keeps only four bytes. -/
def keyData (valid_from valid_to : Nat) (domain : List Nat) (accounts : Nat) : List Nat :=
  (((([] ++ leBytes 8 valid_from) ++ leBytes 8 valid_to) ++ leBytes 4 accounts)
      ++ leBytes 4 domain.length) ++ domain

namespace KeygenCommon

/-- `generate_license_key` from `crates/common/src/enterprise/keygen.rs`
(lines 155-173): builds `key_data` field by field, signs it, appends the
signature and returns `Ok` of the base64 encoding. -/
def generate_license_key (valid_from valid_to : Nat) (domain : List Nat)
    (accounts : Nat) (sign : List Nat → List Nat) : Except String String :=
  let key_data : List Nat := []
  let key_data := key_data ++ leBytes 8 valid_from
  let key_data := key_data ++ leBytes 8 valid_to
  let key_data := key_data ++ leBytes 4 accounts
  let key_data := key_data ++ leBytes 4 domain.length
  let key_data := key_data ++ domain
  let signature := sign key_data
  let key_data := key_data ++ signature
  Except.ok (String.mk (base64Encode key_data))

end KeygenCommon

namespace KeygenSrc

/-- `generate_license_key` from `src/enterprise/keygen.rs` (lines 158-176);
the function body is character-for-character the same as the copy in
`crates/common`. -/
def generate_license_key (valid_from valid_to : Nat) (domain : List Nat)
    (accounts : Nat) (sign : List Nat → List Nat) : Except String String :=
  let key_data : List Nat := []
  let key_data := key_data ++ leBytes 8 valid_from
  let key_data := key_data ++ leBytes 8 valid_to
  let key_data := key_data ++ leBytes 4 accounts
  let key_data := key_data ++ leBytes 4 domain.length
  let key_data := key_data ++ domain
  let signature := sign key_data
  let key_data := key_data ++ signature
  Except.ok (String.mk (base64Encode key_data))

end KeygenSrc

/-- Modelled from the spec: `TokenCodec.decode` (§4.2) is not part of this
repository's source — the verifier lives in the consuming product and only
the encoder is under `src/`.  Per the spec, `decode` reads the four
fixed-width little-endian fields (8+8+4+4 bytes) and the domain bytes, and
fails if the buffer is shorter than the fixed-width prefix or if `domainLen`
does not match the number of remaining bytes.  (The spec's UTF-8 validity
check is vacuous here because the domain is modelled as its byte list.) -/
def decode (bs : List Nat) : Option (Nat × Nat × Nat × List Nat) :=
  if 24 ≤ bs.length then
    if fromLE ((bs.drop 20).take 4) = (bs.drop 24).length then
      some (fromLE (bs.take 8), fromLE ((bs.drop 8).take 8),
            fromLE ((bs.drop 16).take 4), bs.drop 24)
    else none
  else none

/-- Digit-accumulation loop of Rust's `u32::from_str`: consume decimal
digits, failing on a non-digit character or on overflow past `u32::MAX`
(the `checked_mul`/`checked_add` steps). -/
def parseU32Loop : List Char → Nat → Option Nat
  | [], acc => some acc
  | c :: cs, acc =>
      if c.isDigit then
        let v := acc * 10 + (c.toNat - 48)
        if v < 2 ^ 32 then parseU32Loop cs v else none
      else none

/-- Rust's `s.parse::<u32>()` on a string given as its character list: an
optional single leading `+`, then one or more decimal digits; fails on an
empty digit sequence, any non-digit character, or overflow. -/
def parseU32 : List Char → Option Nat
  | [] => none
  | '+' :: rest => if rest.isEmpty then none else parseU32Loop rest 0
  | s => parseU32Loop s 0

/-- The `--accounts` handling in `main` (crates/common keygen.rs line 60 and
src keygen.rs line 63): `accounts = args[i + 1].parse().unwrap_or(100)` —
a failed parse is replaced by the default `100`. -/
def accountsArg (s : List Char) : Nat := (parseU32 s).getD 100

/-- The 62-symbol charset of rand's `Alphanumeric` distribution. -/
def alphanumCharset : List Char :=
  "ABCDEFGHIJKLMNOPQRSTUVWXYZabcdefghijklmnopqrstuvwxyz0123456789".toList

/-- One accepted draw of rand's `Alphanumeric` distribution: the rejection
loop keeps only 6-bit samples below 62, so an accepted sample is modelled
as a value already in `Fin 62`, indexing the charset. -/
def alphanumericSample (r : Fin 62) : Char := alphanumCharset.getD r.val 'A'

/-- `main`'s API-key generation (crates/common keygen.rs lines 133-137):
`rand::thread_rng().sample_iter(&Alphanumeric).take(32).map(char::from)`,
with the thread RNG's stream of accepted samples passed explicitly. -/
def apiKey (stream : Nat → Fin 62) : List Char :=
  (List.range 32).map fun i => alphanumericSample (stream i)

/-- The two secret artifacts `main` produces after argument handling: the
license key (lines 118-125, a function of the fields and the signing key)
and the API key (lines 133-137, a function of the thread RNG alone). -/
def mainArtifacts (valid_from valid_to : Nat) (domain : List Nat) (accounts : Nat)
    (sign : List Nat → List Nat) (stream : Nat → Fin 62) :
    Except String String × List Char :=
  (KeygenCommon.generate_license_key valid_from valid_to domain accounts sign,
    apiKey stream)

/-- The UTF-8 bytes of the domain string `"example.com"`. -/
def exampleDomainBytes : List Nat := [101, 120, 97, 109, 112, 108, 101, 46, 99, 111, 109]

theorem keyData_assoc (vf vt : Nat) (dom : List Nat) (al : Nat) :
    keyData vf vt dom al =
      leBytes 8 vf ++ (leBytes 8 vt ++ (leBytes 4 al ++ (leBytes 4 dom.length ++ dom))) := by
  simp [keyData, List.append_assoc]

theorem keyData_length (vf vt : Nat) (dom : List Nat) (al : Nat) :
    (keyData vf vt dom al).length = 24 + dom.length := by
  simp [keyData, leBytes_length]
  omega

theorem keyData_take8 (vf vt : Nat) (dom : List Nat) (al : Nat) :
    (keyData vf vt dom al).take 8 = leBytes 8 vf := by
  rw [keyData_assoc]
  exact List.take_left' (leBytes_length 8 vf)

theorem keyData_drop8 (vf vt : Nat) (dom : List Nat) (al : Nat) :
    (keyData vf vt dom al).drop 8 =
      leBytes 8 vt ++ (leBytes 4 al ++ (leBytes 4 dom.length ++ dom)) := by
  rw [keyData_assoc]
  exact List.drop_left' (leBytes_length 8 vf)

theorem keyData_drop16 (vf vt : Nat) (dom : List Nat) (al : Nat) :
    (keyData vf vt dom al).drop 16 = leBytes 4 al ++ (leBytes 4 dom.length ++ dom) := by
  rw [show (16:Nat) = 8 + 8 from rfl, ← List.drop_drop, keyData_drop8]
  exact List.drop_left' (leBytes_length 8 vt)

theorem keyData_drop20 (vf vt : Nat) (dom : List Nat) (al : Nat) :
    (keyData vf vt dom al).drop 20 = leBytes 4 dom.length ++ dom := by
  rw [show (20:Nat) = 16 + 4 from rfl, ← List.drop_drop, keyData_drop16]
  exact List.drop_left' (leBytes_length 4 al)

theorem keyData_drop24 (vf vt : Nat) (dom : List Nat) (al : Nat) :
    (keyData vf vt dom al).drop 24 = dom := by
  rw [show (24:Nat) = 20 + 4 from rfl, ← List.drop_drop, keyData_drop20]
  exact List.drop_left' (leBytes_length 4 dom.length)

/-- The declared `domainLen` field of the canonical bytes always reads back
as the domain byte length reduced modulo `2 ^ 32` (the `as u32` cast). -/
theorem keyData_domainLen_field (vf vt : Nat) (dom : List Nat) (al : Nat) :
    fromLE (((keyData vf vt dom al).drop 20).take 4) = dom.length % 2 ^ 32 := by
  rw [keyData_drop20, List.take_left' (leBytes_length 4 dom.length), fromLE_leBytes]
  norm_num

/-- Decoding the canonical bytes produced by the encoder recovers the
fields, whenever each field fits its declared fixed width. -/
theorem decode_keyData (vf vt al : Nat) (dom : List Nat)
    (hvf : vf < 2 ^ 64) (hvt : vt < 2 ^ 64) (hal : al < 2 ^ 32)
    (hd : dom.length < 2 ^ 32) :
    decode (keyData vf vt dom al) = some (vf, vt, al, dom) := by
  have hlen : 24 ≤ (keyData vf vt dom al).length := by
    rw [keyData_length]; omega
  have hdl : fromLE (((keyData vf vt dom al).drop 20).take 4) =
      ((keyData vf vt dom al).drop 24).length := by
    rw [keyData_domainLen_field, keyData_drop24, Nat.mod_eq_of_lt hd]
  rw [decode, if_pos hlen, if_pos hdl, keyData_take8, keyData_drop8,
    keyData_drop16, keyData_drop24]
  rw [List.take_left' (leBytes_length 8 vt), List.take_left' (leBytes_length 4 al),
    fromLE_leBytes, fromLE_leBytes, fromLE_leBytes]
  norm_num at hvf hvt hal ⊢
  exact ⟨hvf, hvt, hal⟩

theorem alphanumericSample_mem (r : Fin 62) :
    alphanumericSample r ∈ alphanumCharset := by
  have h : r.val < alphanumCharset.length := by
    simp [alphanumCharset]
  rw [alphanumericSample, List.getD_eq_getElem alphanumCharset 'A' h]
  exact List.getElem_mem h

/-- C1: for every unsigned 64-bit `validFrom` and `validTo`, unsigned
32-bit `accountLimit` and UTF-8 domain, `generate_license_key` returns `Ok`
of exactly the standard padded base64 of
`LE64(validFrom) || LE64(validTo) || LE32(accountLimit) ||
LE32(len(domain)) || domain || signature bytes`, in that field order with
no separators. -/
theorem C1_wire_format (vf vt al : Nat) (dom : List Nat)
    (sign : List Nat → List Nat)
    (_hvf : vf < 2 ^ 64) (_hvt : vt < 2 ^ 64) (_hal : al < 2 ^ 32)
    (_hd : dom.length < 2 ^ 32) :
    KeygenCommon.generate_license_key vf vt dom al sign =
      Except.ok (String.mk (base64Encode
        (leBytes 8 vf ++ leBytes 8 vt ++ leBytes 4 al ++ leBytes 4 dom.length
          ++ dom ++ sign (leBytes 8 vf ++ leBytes 8 vt ++ leBytes 4 al
            ++ leBytes 4 dom.length ++ dom)))) := rfl

/-- Witness for C1 at the spec's concrete scenario, with a fixed 64-byte
stand-in for the Ed25519 signature function. -/
theorem C1_wire_format_witness :
    (1700000000 : Nat) < 2 ^ 64 ∧ (1857680000 : Nat) < 2 ^ 64 ∧
    (100 : Nat) < 2 ^ 32 ∧ exampleDomainBytes.length < 2 ^ 32 ∧
    KeygenCommon.generate_license_key 1700000000 1857680000 exampleDomainBytes 100
        (fun _ => List.replicate 64 7) =
      Except.ok (String.mk (base64Encode
        (leBytes 8 1700000000 ++ leBytes 8 1857680000 ++ leBytes 4 100
          ++ leBytes 4 exampleDomainBytes.length ++ exampleDomainBytes
          ++ (fun _ : List Nat => List.replicate 64 7)
            (leBytes 8 1700000000 ++ leBytes 8 1857680000 ++ leBytes 4 100
              ++ leBytes 4 exampleDomainBytes.length ++ exampleDomainBytes)))) :=
  ⟨by decide, by decide, by decide, by decide,
    C1_wire_format 1700000000 1857680000 100 exampleDomainBytes _
      (by decide) (by decide) (by decide) (by decide)⟩

/-- C2: for every valid field tuple (`validFrom ≤ validTo`, any 32-bit
account limit, domain whose byte length fits 32 bits), decoding the
canonical byte encoding yields back exactly the original fields. -/
theorem C2_round_trip (vf vt al : Nat) (dom : List Nat)
    (_hord : vf ≤ vt)
    (hvf : vf < 2 ^ 64) (hvt : vt < 2 ^ 64) (hal : al < 2 ^ 32)
    (hd : dom.length < 2 ^ 32) :
    decode (keyData vf vt dom al) = some (vf, vt, al, dom) :=
  decode_keyData vf vt al dom hvf hvt hal hd

/-- Witness for C2 at a small concrete field tuple. -/
theorem C2_round_trip_witness :
    (5 : Nat) ≤ 9 ∧ (5 : Nat) < 2 ^ 64 ∧ (9 : Nat) < 2 ^ 64 ∧
    (3 : Nat) < 2 ^ 32 ∧ ([100, 101] : List Nat).length < 2 ^ 32 ∧
    decode (keyData 5 9 [100, 101] 3) = some (5, 9, 3, [100, 101]) :=
  ⟨by decide, by decide, by decide, by decide, by decide,
    C2_round_trip 5 9 3 [100, 101] (by decide) (by decide) (by decide)
      (by decide) (by decide)⟩

/-- C3: the buffer that gets base64-encoded is the signed message followed
by its signature, and the signed message is exactly
`LE64(validFrom) || LE64(validTo) || LE32(accountLimit) || LE32(domainLen)
|| domain` — no additional padding or length prefix enters the signed
data. -/
theorem C3_signed_message (vf vt al : Nat) (dom : List Nat)
    (sign : List Nat → List Nat) :
    KeygenCommon.generate_license_key vf vt dom al sign =
      Except.ok (String.mk (base64Encode
        (keyData vf vt dom al ++ sign (keyData vf vt dom al)))) ∧
    keyData vf vt dom al =
      leBytes 8 vf ++ leBytes 8 vt ++ leBytes 4 al ++ leBytes 4 dom.length ++ dom :=
  ⟨rfl, by simp [keyData]⟩

/-- C4: the canonical byte encoding is injective on the constrained field
domain — canonical byte sequences are equal iff the tuples are equal
field for field. -/
theorem C4_injective (vf vt al : Nat) (dom : List Nat)
    (vf' vt' al' : Nat) (dom' : List Nat)
    (hvf : vf < 2 ^ 64) (hvt : vt < 2 ^ 64) (hal : al < 2 ^ 32)
    (hd : dom.length < 2 ^ 32)
    (hvf' : vf' < 2 ^ 64) (hvt' : vt' < 2 ^ 64) (hal' : al' < 2 ^ 32)
    (hd' : dom'.length < 2 ^ 32) :
    keyData vf vt dom al = keyData vf' vt' dom' al' ↔
      vf = vf' ∧ vt = vt' ∧ al = al' ∧ dom = dom' := by
  constructor
  · intro h
    have h1 := decode_keyData vf vt al dom hvf hvt hal hd
    rw [h, decode_keyData vf' vt' al' dom' hvf' hvt' hal' hd'] at h1
    simp only [Option.some.injEq, Prod.mk.injEq] at h1
    exact ⟨h1.1.symm, h1.2.1.symm, h1.2.2.1.symm, h1.2.2.2.symm⟩
  · rintro ⟨rfl, rfl, rfl, rfl⟩
    rfl

/-- Witness for C4 at two concrete equal tuples. -/
theorem C4_injective_witness :
    (1 : Nat) < 2 ^ 64 ∧ (2 : Nat) < 2 ^ 64 ∧ (3 : Nat) < 2 ^ 32 ∧
    ([100] : List Nat).length < 2 ^ 32 ∧
    (keyData 1 2 [100] 3 = keyData 1 2 [100] 3 ↔
      (1 : Nat) = 1 ∧ (2 : Nat) = 2 ∧ (3 : Nat) = 3 ∧ ([100] : List Nat) = [100]) :=
  ⟨by decide, by decide, by decide, by decide,
    C4_injective 1 2 3 [100] 1 2 3 [100] (by decide) (by decide) (by decide)
      (by decide) (by decide) (by decide) (by decide) (by decide)⟩

/-- C5 counterexample: `--accounts abc` does not parse as a u32, yet
`main` proceeds with the default value 100 (`parse().unwrap_or(100)`)
instead of returning an explicit typed failure: malformed input is
silently replaced by a default. -/
theorem C5_counterexample :
    parseU32 ['a', 'b', 'c'] = none ∧ accountsArg ['a', 'b', 'c'] = 100 := by
  decide

/-- C5 amended: the issuing core (`generate_license_key`) itself returns an
explicit `Result`, but the surrounding CLI layer does substitute defaults:
whenever the `--accounts` value fails to parse as a u32, `main` silently
proceeds with the default 100 rather than failing. -/
theorem C5_amended_default_substitution (s : List Char)
    (h : parseU32 s = none) : accountsArg s = 100 := by
  simp [accountsArg, h]

/-- Witness for the amended C5 at the malformed input `"xy"`. -/
theorem C5_amended_default_substitution_witness :
    parseU32 ['x', 'y'] = none ∧ accountsArg ['x', 'y'] = 100 :=
  ⟨by decide, C5_amended_default_substitution ['x', 'y'] (by decide)⟩

/-- C6: at the spec's concrete scenario the canonical bytes have length
exactly 8+8+4+4+11 = 35, and in general the canonical byte length is 24
plus the domain's byte length. -/
theorem C6_canonical_length :
    (keyData 1700000000 1857680000 exampleDomainBytes 100).length = 35 ∧
    ∀ (vf vt al : Nat) (dom : List Nat),
      (keyData vf vt dom al).length = 24 + dom.length := by
  refine ⟨?_, fun vf vt al dom => keyData_length vf vt dom al⟩
  rw [keyData_length]
  rfl

/-- C7: the API key is a string of exactly 32 characters, each drawn from
the 62-symbol alphanumeric charset, and the API-key artifact of `main` does
not depend on the signing function at all. -/
theorem C7_api_key (stream : Nat → Fin 62) (sign : List Nat → List Nat)
    (vf vt al : Nat) (dom : List Nat) :
    (apiKey stream).length = 32 ∧
    alphanumCharset.length = 62 ∧
    (∀ c ∈ apiKey stream, c ∈ alphanumCharset) ∧
    (∀ sign' : List Nat → List Nat,
      (mainArtifacts vf vt dom al sign stream).2 =
        (mainArtifacts vf vt dom al sign' stream).2) := by
  refine ⟨by simp [apiKey], by decide, ?_, fun sign' => rfl⟩
  intro c hc
  simp only [apiKey, List.mem_map] at hc
  obtain ⟨i, -, rfl⟩ := hc
  exact alphanumericSample_mem (stream i)

/-- C8: the two copies of the issuing logic compute the same function — on
every identical input they return the same wire token. -/
theorem C8_copies_equal (vf vt al : Nat) (dom : List Nat)
    (sign : List Nat → List Nat) :
    KeygenCommon.generate_license_key vf vt dom al sign =
      KeygenSrc.generate_license_key vf vt dom al sign := rfl

/-- C9: `generate_license_key` is total and never returns an error: for
every input — `validFrom > validTo` and the empty domain included, since
`vf`, `vt` and `dom` are unconstrained here — it returns `Ok` of the wire
token encoding exactly the given values; no `validFrom ≤ validTo` check is
performed at issuance. -/
theorem C9_total_no_validation (vf vt al : Nat) (dom : List Nat)
    (sign : List Nat → List Nat) :
    KeygenCommon.generate_license_key vf vt dom al sign =
      Except.ok (String.mk (base64Encode
        (keyData vf vt dom al ++ sign (keyData vf vt dom al)))) := rfl

/-- C10: when the domain byte length does not fit in 32 bits, the encoder
still appends every domain byte but writes the length reduced modulo
`2 ^ 32` into the `domainLen` field (the `as u32` cast), so the declared
length disagrees with the number of domain bytes actually present. -/
theorem C10_domain_len_truncation (vf vt al : Nat) (dom : List Nat)
    (h : 2 ^ 32 ≤ dom.length) :
    keyData vf vt dom al =
      leBytes 8 vf ++ leBytes 8 vt ++ leBytes 4 al
        ++ leBytes 4 (dom.length % 2 ^ 32) ++ dom ∧
    fromLE (((keyData vf vt dom al).drop 20).take 4) = dom.length % 2 ^ 32 ∧
    ((keyData vf vt dom al).drop 24).length = dom.length ∧
    dom.length % 2 ^ 32 ≠ dom.length := by
  have htr : leBytes 4 (dom.length % 2 ^ 32) = leBytes 4 dom.length := by
    have h4 : (256 : Nat) ^ 4 = 2 ^ 32 := by norm_num
    rw [← h4, leBytes_mod]
  refine ⟨?_, keyData_domainLen_field vf vt dom al, by rw [keyData_drop24], ?_⟩
  · rw [htr]
    simp [keyData]
  · intro hEq
    have := Nat.mod_lt dom.length (show 0 < 2 ^ 32 by norm_num)
    omega

/-- Witness for C10 at a domain of exactly `2 ^ 32` bytes. -/
theorem C10_domain_len_truncation_witness :
    2 ^ 32 ≤ (List.replicate (2 ^ 32) (0 : Nat)).length ∧
    (keyData 0 0 (List.replicate (2 ^ 32) (0 : Nat)) 0 =
      leBytes 8 0 ++ leBytes 8 0 ++ leBytes 4 0
        ++ leBytes 4 ((List.replicate (2 ^ 32) (0 : Nat)).length % 2 ^ 32)
        ++ List.replicate (2 ^ 32) (0 : Nat) ∧
     fromLE (((keyData 0 0 (List.replicate (2 ^ 32) (0 : Nat)) 0).drop 20).take 4) =
       (List.replicate (2 ^ 32) (0 : Nat)).length % 2 ^ 32 ∧
     ((keyData 0 0 (List.replicate (2 ^ 32) (0 : Nat)) 0).drop 24).length =
       (List.replicate (2 ^ 32) (0 : Nat)).length ∧
     (List.replicate (2 ^ 32) (0 : Nat)).length % 2 ^ 32 ≠
       (List.replicate (2 ^ 32) (0 : Nat)).length) :=
  ⟨by rw [List.length_replicate],
    C10_domain_len_truncation 0 0 0 _ (by rw [List.length_replicate])⟩

end StalwartGen
